import Mathlib

/-!
Verification of the offline-first task manager (PWA_App).

Shallow embedding of the synchronization core:
* `PWA.idb_addTask`, `PWA.idb_getTasks`, `PWA.idb_updateTask`, `PWA.idb_deleteTask`
  embed the IndexedDB local store operations of
  `src/frontend/src/hooks/useIndexedDB.js`;
* `PWA.server_createTask`, `PWA.server_updateTask`, `PWA.server_deleteTask`,
  `PWA.server_stats` embed the Express handlers of `src/backend/index.js`;
* `PWA.engine_addTask`, `PWA.engine_updateTask`, `PWA.engine_deleteTask`,
  `PWA.engine_getTasks`, `PWA.engine_getStats`, `PWA.syncWithServer`
  embed the sync engine of `src/frontend/src/hooks/useTaskSync.js`.

Conventions of the embedding:
* JS millisecond timestamps (`Date.now()`, `toISOString()`) are a `Nat` clock
  threaded through the world state; every data-creating call draws the current
  clock value and bumps it (`Date.now().toString()` is injective on distinct
  millisecond values, so record identifiers are plain `Nat`s).
* Network effects are explicit: `Env.online` is `navigator.onLine`,
  `Env.reachable` says whether the remote endpoint answers at all, and
  `Env.failAt n` injects a failure into the n-th request an operation issues
  (requests are numbered from 0 within one engine operation, the health probe
  included).  A `fetch` that is attempted is recorded in an `RCall` trace
  whether or not it succeeds.
* Fallible code returns `Except`; a JS `throw` that the source catches is an
  `Except.error` that the embedding matches on at the same place.
-/

namespace PWA

/-- Task priority enumeration: `low`, `medium`, `high` (strings in JS). -/
inductive Priority where
  | low
  | medium
  | high
deriving Repr, DecidableEq, BEq

/-- An attached image as the `{data, type}` object used by both layers. -/
structure Image where
  data : String
  type : String
deriving Repr, DecidableEq, BEq

/-- A task record.  This is the union of the fields that flow through the
local store, the sync engine and the server; fields a JS object simply lacks
(`isNew`, `serverCreated`, `serverId` on server-built records) are the
defaults `false` / `none`. -/
structure Task where
  id : Nat
  title : String
  description : String
  completed : Bool
  priority : Priority
  image : Option Image
  photo : Option String
  createdAt : Nat
  updatedAt : Nat
  synced : Bool
  isNew : Bool
  serverCreated : Bool
  serverId : Option Nat
deriving Repr, DecidableEq, BEq

/-- A field-by-field update object (`updates` in `useIndexedDB.updateTask`, the PUT
request body in the backend).  `none` means the key is absent; for `image` and
`photo` the inner `Option` distinguishes an explicit `null` from a value. -/
structure TaskPatch where
  title : Option String := none
  description : Option String := none
  completed : Option Bool := none
  priority : Option Priority := none
  image : Option (Option Image) := none
  photo : Option (Option String) := none
  synced : Option Bool := none
  isNew : Option Bool := none
  serverCreated : Option Bool := none
deriving Repr

/-- Errors of the local store layer (`useIndexedDB`). -/
inductive DBError where
  | notInitialized
  | keyExists
  | notFound
deriving Repr, DecidableEq

/-- Errors of the remote REST layer (non-2xx responses of `index.js`;
`apiService.request` turns any of them into a thrown exception). -/
inductive ApiError where
  | badRequest (msg : String)
  | notFound
deriving Repr, DecidableEq

/-! ## Local Store: `useIndexedDB.js` -/

/-- JS object spread `{...task, ...updates}`: every key present in the patch
overwrites the corresponding field of the record. -/
def mergePatch (t : Task) (p : TaskPatch) : Task :=
  { t with
    title := p.title.getD t.title
    description := p.description.getD t.description
    completed := p.completed.getD t.completed
    priority := p.priority.getD t.priority
    image := p.image.getD t.image
    photo := p.photo.getD t.photo
    synced := p.synced.getD t.synced
    isNew := p.isNew.getD t.isNew
    serverCreated := p.serverCreated.getD t.serverCreated }

/-- Embeds `useIndexedDB.addTask` (lines 57-100): builds
`{...task, id: Date.now().toString(), createdAt: now, updatedAt: now,
synced: false}` — the trailing fields override whatever the caller passed —
and `store.add`s it, which fails when the key already exists. -/
def idb_addTask (store : List Task) (input : Task) (now : Nat) :
    Except DBError (List Task × Task) :=
  let newTask : Task :=
    { input with id := now, createdAt := now, updatedAt := now, synced := false }
  if store.any (fun t => t.id == newTask.id) then
    .error .keyExists
  else
    .ok (store ++ [newTask], newTask)

/-- Embeds `useIndexedDB.getTasks` (lines 102-165): `getAll` plus read-time repair.
On the typed records of this embedding every repair step (`createdAt`
parsable, `updatedAt` parsable, `id` present, `completed` boolean, `priority`
set) is vacuously satisfied, so the validation map is the identity. -/
def idb_getTasks (store : List Task) : List Task :=
  store

/-- Embeds `useIndexedDB.updateTask` (lines 167-217): `store.get(id)`; when found,
writes `{...task, ...updates, updatedAt: now, synced: false}` — note that
`synced: false` comes after the spread of `updates`, so the stored record is
unsynced even when the caller passed `synced: true`.  `Task not found`
otherwise.  The list models key order; `get`/`put` address the first (unique)
record with the key. -/
def idb_updateTask : List Task → Nat → TaskPatch → Nat →
    Except DBError (List Task × Task)
  | [], _, _, _ => .error .notFound
  | t :: ts, id, p, now =>
    if t.id == id then
      let updated : Task := { mergePatch t p with updatedAt := now, synced := false }
      .ok (updated :: ts, updated)
    else
      match idb_updateTask ts id p now with
      | .ok (ts', u) => .ok (t :: ts', u)
      | .error e => .error e

/-- Embeds `useIndexedDB.deleteTask` (lines 219-247): `store.delete(id)`; an
IndexedDB delete resolves whether or not the key was present. -/
def idb_deleteTask (store : List Task) (id : Nat) : List Task :=
  store.filter (fun t => t.id != id)

/-! ## Remote store: `src/backend/index.js` -/

/-- The `image` field of a POST body: the client sends either a `{data,type}`
object or (from the sync loop's `task.image || task.photo`) a bare data-URI
string. -/
inductive JsImage where
  | obj (i : Image)
  | str (s : String)
deriving Repr, DecidableEq

/-- JS truthiness of a value sitting in the `image` slot: objects are truthy,
strings are truthy when non-empty. -/
def jsImageTruthy : JsImage → Bool
  | .obj _ => true
  | .str s => s != ""

/-- Embeds `photo ? {data: photo, type: "image/jpeg"} : null` — wraps a truthy photo
string, yields null for a falsy one. -/
def wrapPhoto : Option String → Option JsImage
  | some p => if p != "" then some (.obj ⟨p, "image/jpeg"⟩) else none
  | none => none

/-- Embeds `const imageData = image || (photo ? {data: photo, type} : null)` in the
POST handler. -/
def resolveCreateImage (image : Option JsImage) (photo : Option String) :
    Option JsImage :=
  match image with
  | some ji => if jsImageTruthy ji then some ji else wrapPhoto photo
  | none => wrapPhoto photo

/-- Embeds `imageData && imageData.data` plus `imageData.type || "image/jpeg"`:
yields the (data, resolved type) pair exactly when the resolved image value
has a truthy `.data` (a bare string has no `.data` property). -/
def imageDataOf : Option JsImage → Option (String × String)
  | some (.obj i) =>
    if i.data != "" then
      some (i.data, if i.type == "" then "image/jpeg" else i.type)
    else none
  | some (.str _) => none
  | none => none

/-- Embeds `data.replace(/^data:image\/[a-z]+;base64,/, "")`: strips one leading
data-URI marker (`data:image/`, one or more lowercase letters, `;base64,`)
when present. -/
def stripDataUri (s : String) : String :=
  if s.startsWith "data:image/" then
    let rest := s.drop 11
    let letters := rest.takeWhile (fun c => 'a' ≤ c && c ≤ 'z')
    if letters.length ≥ 1 && (rest.drop letters.length).startsWith ";base64," then
      (rest.drop letters.length).drop 8
    else s
  else s

/-- The size guard of both write handlers:
`imageSizeBytes = (data.length * 3) / 4; imageSizeBytes > 5 * 1024 * 1024`.
The float arithmetic is exact here, so the condition is
`3 * length > 4 * 5242880`.  Note the length measured is the raw base64
string as received — data-URI marker included, padding included — not the decoded
byte count. -/
def imageTooLarge (len : Nat) : Bool :=
  4 * (5 * 1024 * 1024) < 3 * len

/-- POST request body (`req.body` of `POST /api/tasks`).  The handler
destructures `{title, description, priority = "medium", image, photo}` — a
`completed` field in the body is never read. -/
structure CreateBody where
  title : String := ""
  description : Option String := none
  completed : Option Bool := none
  priority : Option Priority := none
  image : Option JsImage := none
  photo : Option String := none
deriving Repr

/-- The task object the POST handler pushes (`index.js` lines 59-73):
server id and timestamps from the clock, `completed: false` uncondition-
ally, `synced: true`, and the display `photo` data URI rebuilt from the
processed image. -/
def server_mkTask (body : CreateBody) (now : Nat) (processed : Option Image) :
    Task :=
  { id := now
    title := body.title
    description := body.description.getD ""
    completed := false
    priority := body.priority.getD .medium
    image := processed
    photo := processed.map (fun i => "data:image/jpeg;base64," ++ i.data)
    createdAt := now
    updatedAt := now
    synced := true
    isNew := false
    serverCreated := false
    serverId := none }

/-- Embeds `POST /api/tasks` (`index.js` lines 32-81): reject a falsy title; resolve
the image value; when it carries data, reject it if the approximate size
exceeds 5 MiB, else strip the data-URI marker; push the new record. -/
def server_createTask (tasks : List Task) (body : CreateBody) (now : Nat) :
    Except ApiError (List Task × Task) :=
  if body.title == "" then
    .error (.badRequest "Title is required")
  else
    match imageDataOf (resolveCreateImage body.image body.photo) with
    | some (d, ty) =>
      if imageTooLarge d.length then
        .error (.badRequest "Image too large. Maximum size is 5MB.")
      else
        let processed : Image := { data := stripDataUri d, type := ty }
        let task := server_mkTask body now (some processed)
        .ok (tasks ++ [task], task)
    | none =>
      let task := server_mkTask body now none
      .ok (tasks ++ [task], task)

/-- The image resolution of the PUT handler (`index.js` lines 96-103):
distinguishes an absent field (`none`), an explicit null (`some none`) and a
value; a `photo` string is wrapped when truthy, null when falsy. -/
def resolveUpdateImage (image : Option (Option Image))
    (photo : Option (Option String)) : Option (Option Image) :=
  match image with
  | some v => some v
  | none =>
    match photo with
    | some (some p) => some (if p != "" then some ⟨p, "image/jpeg"⟩ else none)
    | some none => some none
    | none => none

/-- The PUT handler's `processedImage` computation (`index.js` lines
104-122): keep the existing image when the field is absent or its data is
falsy, null it on explicit null, else validate the size and strip the
data-URI marker. -/
def server_processUpdateImage (existing : Option Image)
    (imageData : Option (Option Image)) : Except ApiError (Option Image) :=
  match imageData with
  | none => .ok existing
  | some none => .ok none
  | some (some i) =>
    if i.data != "" then
      if imageTooLarge i.data.length then
        .error (.badRequest "Image too large. Maximum size is 5MB.")
      else
        .ok (some { data := stripDataUri i.data
                    type := if i.type == "" then "image/jpeg" else i.type })
    else .ok existing

/-- The record the PUT handler stores (`index.js` lines 124-137): provided
fields override, `updatedAt` is restamped, `synced: true`, and `photo` is
rebuilt from the processed image. -/
def server_applyUpdate (existing : Task) (body : TaskPatch) (now : Nat) :
    Except ApiError Task :=
  match server_processUpdateImage existing.image
      (resolveUpdateImage body.image body.photo) with
  | .error e => .error e
  | .ok processed =>
    .ok { existing with
      title := body.title.getD existing.title
      description := body.description.getD existing.description
      completed := body.completed.getD existing.completed
      priority := body.priority.getD existing.priority
      image := processed
      photo := processed.map (fun i => "data:image/jpeg;base64," ++ i.data)
      updatedAt := now
      synced := true }

/-- Embeds `PUT /api/tasks/:id` (`index.js` lines 83-145): `findIndex` on the id —
404 when absent — then replace the first matching record in place. -/
def server_updateTask : List Task → Nat → TaskPatch → Nat →
    Except ApiError (List Task × Task)
  | [], _, _, _ => .error .notFound
  | t :: ts, id, body, now =>
    if t.id == id then
      match server_applyUpdate t body now with
      | .ok updated => .ok (updated :: ts, updated)
      | .error e => .error e
    else
      match server_updateTask ts id body now with
      | .ok (ts', u) => .ok (t :: ts', u)
      | .error e => .error e

/-- Embeds `DELETE /api/tasks/:id` (`index.js` lines 147-157): `findIndex` then
`splice` of the first matching record; 404 when absent. -/
def server_deleteTask : List Task → Nat → Except ApiError (List Task)
  | [], _ => .error .notFound
  | t :: ts, id =>
    if t.id == id then .ok ts
    else
      match server_deleteTask ts id with
      | .ok ts' => .ok (t :: ts')
      | .error e => .error e

/-- The `{total, completed, pending, highPriority}` aggregate.  The local
fallback additionally carries a display-only `completionRate` percentage
string (floating point), not modelled here. -/
structure Stats where
  total : Nat
  completed : Nat
  pending : Nat
  highPriority : Nat
deriving Repr, DecidableEq

/-- Embeds `GET /api/stats` (`index.js` lines 159-170). -/
def server_stats (tasks : List Task) : Stats :=
  let total := tasks.length
  let completed := (tasks.filter (fun t => t.completed)).length
  { total := total
    completed := completed
    pending := total - completed
    highPriority :=
      (tasks.filter (fun t => t.priority == Priority.high && !t.completed)).length }

/-! ## Sync engine: `useTaskSync.js` -/

/-- Network environment of one engine operation: `online` is the browser
belief (`navigator.onLine`), `reachable` whether the remote endpoint answers,
and `failAt n` injects a failure into the n-th request the operation issues
(requests numbered from 0, health probe included). -/
structure Env where
  online : Bool
  reachable : Bool
  failAt : Nat → Bool

/-- Whether the n-th request of the operation succeeds. -/
def remoteOk (env : Env) (n : Nat) : Bool :=
  env.reachable && !env.failAt n

/-- Trace element: one remote request actually issued (a `fetch` attempted,
successful or not). -/
inductive RCall where
  | health
  | list
  | create
  | update
  | delete
  | stats
deriving Repr, DecidableEq

/-- The non-health requests of a trace — the "remote operations" the
reachability gate of the spec is about. -/
def dataCalls (tr : List RCall) : List RCall :=
  tr.filter (fun c => c != RCall.health)

/-- Combined state of both stores plus the millisecond clock. -/
structure World where
  store : List Task
  server : List Task
  clock : Nat
deriving Repr

/-- Engine-level sync status (`isSyncing`, `syncError`, `lastSyncTime`). -/
structure SyncState where
  isSyncing : Bool := false
  syncError : Option String := none
  lastSyncTime : Option Nat := none
deriving Repr, DecidableEq

/-- Engine-level errors that reach the caller of a mutation. -/
inductive EngineError where
  | localErr (e : DBError)
  | notFoundAnywhere
deriving Repr, DecidableEq

/-- Embeds `checkServerConnection` (`useTaskSync.js` lines 21-31): false straight
away when offline (no request), else one `healthCheck` request whose outcome
is the verdict. -/
def checkServerConnection (env : Env) (n : Nat) : Bool × Nat × List RCall :=
  if !env.online then (false, n, [])
  else (remoteOk env n, n + 1, [RCall.health])

/-- What the UI passes to `addTask` (`taskData`). -/
structure TaskInput where
  title : String := ""
  description : String := ""
  completed : Bool := false
  priority : Priority := .medium
  image : Option Image := none
  photo : Option String := none
deriving Repr

/-- Embeds `{...taskData, synced: false, isNew: true}` as handed to `addTaskLocal`
(the id/timestamp fields are placeholders that `idb_addTask` overrides). -/
def inputToTask (i : TaskInput) : Task :=
  { id := 0
    title := i.title
    description := i.description
    completed := i.completed
    priority := i.priority
    image := i.image
    photo := i.photo
    createdAt := 0
    updatedAt := 0
    synced := false
    isNew := true
    serverCreated := false
    serverId := none }

/-- The raw `taskData` serialized as the POST body of
`apiService.createTask(taskData)` in `engine addTask`. -/
def inputToBody (i : TaskInput) : CreateBody :=
  { title := i.title
    description := some i.description
    completed := some i.completed
    priority := some i.priority
    image := i.image.map .obj
    photo := i.photo }

/-- Embeds `useTaskSync.addTask` (lines 175-213): local insert first; when online
and the health probe passes, try the server create; on its success delete
the provisional local record and re-insert the server copy (with
`synced: true, serverCreated: true, isNew: false` in the object spread —
which `idb_addTask` then partly overrides); any remote-leg failure keeps the
provisional local record and still resolves successfully. -/
def engine_addTask (env : Env) (w : World) (input : TaskInput) :
    World × List RCall × Except EngineError Task :=
  match idb_addTask w.store (inputToTask input) w.clock with
  | .error e => (w, [], .error (.localErr e))
  | .ok (store₁, newTask) =>
    let w₁ : World := { w with store := store₁, clock := w.clock + 1 }
    if env.online then
      let (avail, n₁, tr₁) := checkServerConnection env 0
      if avail then
        if remoteOk env n₁ then
          match server_createTask w₁.server (inputToBody input) w₁.clock with
          | .ok (server₂, serverTask) =>
            let w₂ : World := { w₁ with server := server₂, clock := w₁.clock + 1 }
            let store₂ := idb_deleteTask w₂.store newTask.id
            match idb_addTask store₂
                { serverTask with synced := true, serverCreated := true, isNew := false }
                w₂.clock with
            | .ok (store₃, finalTask) =>
              ({ w₂ with store := store₃, clock := w₂.clock + 1 },
               tr₁ ++ [.create], .ok finalTask)
            | .error _ =>
              ({ w₂ with store := store₂ }, tr₁ ++ [.create], .ok newTask)
          | .error _ => (w₁, tr₁ ++ [.create], .ok newTask)
        else (w₁, tr₁ ++ [.create], .ok newTask)
      else (w₁, tr₁, .ok newTask)
    else (w₁, [], .ok newTask)

/-- The local-only fallback of `useTaskSync.updateTask` (lines 239-246):
`updateTaskLocal(id, {...taskData, synced: false})`, surfacing
`not found anywhere` when even that fails. -/
def engine_updateLocalOnly (w : World) (id : Nat) (p : TaskPatch) :
    World × Except EngineError Unit :=
  match idb_updateTask w.store id { p with synced := some false } w.clock with
  | .ok (store', _) => ({ w with store := store', clock := w.clock + 1 }, .ok ())
  | .error _ => (w, .error .notFoundAnywhere)

/-- Embeds `useTaskSync.updateTask` (lines 215-251): when online it goes straight to
`apiService.updateTask` — there is no `checkServerConnection` on this path —
marking the local copy `synced: true` on success (a missing local copy is
tolerated); on remote failure, or offline, it falls back to a local-only
update with `synced: false`. -/
def engine_updateTask (env : Env) (w : World) (id : Nat) (p : TaskPatch) :
    World × List RCall × Except EngineError Unit :=
  if env.online then
    if remoteOk env 0 then
      match server_updateTask w.server id p w.clock with
      | .ok (server', _) =>
        let w₁ : World := { w with server := server', clock := w.clock + 1 }
        match idb_updateTask w₁.store id { p with synced := some true } w₁.clock with
        | .ok (store', _) =>
          ({ w₁ with store := store', clock := w₁.clock + 1 }, [.update], .ok ())
        | .error _ => (w₁, [.update], .ok ())
      | .error _ =>
        let (w', r) := engine_updateLocalOnly w id p
        (w', [.update], r)
    else
      let (w', r) := engine_updateLocalOnly w id p
      (w', [.update], r)
  else
    let (w', r) := engine_updateLocalOnly w id p
    (w', [], r)

/-- Embeds `useTaskSync.deleteTask` (lines 253-271): behind the reachability gate a
best-effort server delete whose failure is swallowed, then the unconditional
local delete. -/
def engine_deleteTask (env : Env) (w : World) (id : Nat) :
    World × List RCall :=
  if env.online then
    let (avail, n₁, tr₁) := checkServerConnection env 0
    if avail then
      if remoteOk env n₁ then
        match server_deleteTask w.server id with
        | .ok server' =>
          ({ w with server := server', store := idb_deleteTask w.store id },
           tr₁ ++ [.delete])
        | .error _ =>
          ({ w with store := idb_deleteTask w.store id }, tr₁ ++ [.delete])
      else ({ w with store := idb_deleteTask w.store id }, tr₁ ++ [.delete])
    else ({ w with store := idb_deleteTask w.store id }, tr₁)
  else ({ w with store := idb_deleteTask w.store id }, [])

/-- Embeds `useTaskSync.getTasks` (lines 134-173): behind the reachability gate
fetch the server list; when non-empty, append the local records that are
unsynced, not server-created and whose title does not appear on the server;
when empty, or on any failure, the local list. -/
def engine_getTasks (env : Env) (w : World) (isSyncing : Bool) :
    List Task × List RCall :=
  let localTasks := idb_getTasks w.store
  if env.online && !isSyncing then
    let (avail, n₁, tr₁) := checkServerConnection env 0
    if avail then
      if remoteOk env n₁ then
        let serverTasks := w.server
        if !serverTasks.isEmpty then
          let pendingLocalTasks := localTasks.filter (fun lt =>
            !lt.synced && !lt.serverCreated &&
              !(serverTasks.any (fun st => st.title == lt.title)))
          (serverTasks ++ pendingLocalTasks, tr₁ ++ [.list])
        else (localTasks, tr₁ ++ [.list])
      else (localTasks, tr₁ ++ [.list])
    else (localTasks, tr₁)
  else (localTasks, [])

/-- The local stats fallback of `useTaskSync.getStats` (lines 286-298). -/
def localStats (tasks : List Task) : Stats :=
  let total := tasks.length
  let completed := (tasks.filter (fun t => t.completed)).length
  let pending := total - completed
  let highPriority :=
    (tasks.filter (fun t => t.priority == Priority.high && !t.completed)).length
  { total := total, completed := completed, pending := pending
    highPriority := highPriority }

/-- Embeds `useTaskSync.getStats` (lines 273-303): behind the reachability gate the
remote `/stats` aggregate; on any failure the local computation. -/
def engine_getStats (env : Env) (w : World) : Stats × List RCall :=
  if env.online then
    let (avail, n₁, tr₁) := checkServerConnection env 0
    if avail then
      if remoteOk env n₁ then (server_stats w.server, tr₁ ++ [.stats])
      else (localStats (idb_getTasks w.store), tr₁ ++ [.stats])
    else (localStats (idb_getTasks w.store), tr₁)
  else (localStats (idb_getTasks w.store), [])

/-- The POST body the sync loop sends for an unsynced new task
(`useTaskSync.js` lines 58-64): note `image: task.image || task.photo` puts
the bare photo string into the image slot when no image object exists. -/
def syncCreateBody (t : Task) : CreateBody :=
  { title := t.title
    description := some t.description
    completed := some t.completed
    priority := some t.priority
    image :=
      match t.image with
      | some i => some (.obj i)
      | none => t.photo.map .str
    photo := none }

/-- The PUT body the sync loop sends for an unsynced old task
(`useTaskSync.js` lines 74-80). -/
def syncUpdateBody (t : Task) : TaskPatch :=
  { title := some t.title
    description := some t.description
    completed := some t.completed
    priority := some t.priority
    image := some t.image
    photo := some t.photo }

/-- Accumulator of the per-task push loop of `syncWithServer`. -/
structure SyncAcc where
  store : List Task
  server : List Task
  clock : Nat
  n : Nat
  trace : List RCall
deriving Repr

/-- One iteration of the `for (const task of unsyncedTasks)` loop
(`useTaskSync.js` lines 54-90).  A new task is pushed with a server create
and the local copy patched `{serverCreated: true, synced: true}`; an old
task issues a server update only when it has a `serverId` (no code path ever
assigns one) and is then patched `{synced: true}`.  The whole body sits in a
per-task `try` — any failure just moves to the next task. -/
def pushOne (env : Env) (acc : SyncAcc) (t : Task) : SyncAcc :=
  if t.isNew then
    let n := acc.n
    let acc₁ := { acc with n := n + 1, trace := acc.trace ++ [RCall.create] }
    if remoteOk env n then
      match server_createTask acc₁.server (syncCreateBody t) acc₁.clock with
      | .ok (server', _) =>
        let acc₂ := { acc₁ with server := server', clock := acc₁.clock + 1 }
        match idb_updateTask acc₂.store t.id
            { serverCreated := some true, synced := some true } acc₂.clock with
        | .ok (store', _) =>
          { acc₂ with store := store', clock := acc₂.clock + 1 }
        | .error _ => acc₂
      | .error _ => acc₁
    else acc₁
  else
    match t.serverId with
    | some sid =>
      let n := acc.n
      let acc₁ := { acc with n := n + 1, trace := acc.trace ++ [RCall.update] }
      if remoteOk env n then
        match server_updateTask acc₁.server sid (syncUpdateBody t) acc₁.clock with
        | .ok (server', _) =>
          let acc₂ := { acc₁ with server := server', clock := acc₁.clock + 1 }
          match idb_updateTask acc₂.store t.id { synced := some true } acc₂.clock with
          | .ok (store', _) =>
            { acc₂ with store := store', clock := acc₂.clock + 1 }
          | .error _ => acc₂
        | .error _ => acc₁
      else acc₁
    | none =>
      match idb_updateTask acc.store t.id { synced := some true } acc.clock with
      | .ok (store', _) =>
        { acc with store := store', clock := acc.clock + 1 }
      | .error _ => acc

/-- Embeds `syncWithServer` (`useTaskSync.js` lines 33-106): refuse when already
syncing or offline; clear the error, probe the server, and when reachable
push every unsynced local record independently (per-record fault isolation),
or, with nothing to push, issue a freshness `list` fetch; `lastSyncTime` is
stamped on normal completion, a thrown fetch lands in `syncError`, and
`isSyncing` is always reset. -/
def syncWithServer (env : Env) (w : World) (st : SyncState) :
    World × SyncState × List RCall :=
  if st.isSyncing || !env.online then (w, st, [])
  else
    let st₁ : SyncState := { st with isSyncing := true, syncError := none }
    let (avail, n₁, tr₁) := checkServerConnection env 0
    if !avail then (w, { st₁ with isSyncing := false }, tr₁)
    else
      let localTasks := idb_getTasks w.store
      let unsyncedTasks := localTasks.filter (fun t => !t.synced)
      if unsyncedTasks.isEmpty then
        if remoteOk env n₁ then
          (w, { st₁ with lastSyncTime := some w.clock, isSyncing := false },
           tr₁ ++ [.list])
        else
          (w, { st₁ with syncError := some "HTTP error", isSyncing := false },
           tr₁ ++ [.list])
      else
        let acc := unsyncedTasks.foldl (pushOne env)
          ⟨w.store, w.server, w.clock, n₁, tr₁⟩
        ({ store := acc.store, server := acc.server, clock := acc.clock },
         { st₁ with lastSyncTime := some acc.clock, isSyncing := false },
         acc.trace)

/-! ## Environments, operation sequences and invariants used in the theorems -/

/-- Fully offline environment (`navigator.onLine` false). -/
def envOffline : Env := ⟨false, false, fun _ => false⟩

/-- Online, reachable, no injected request failures. -/
def envGood : Env := ⟨true, true, fun _ => false⟩

/-- Browser believes it is online but the remote endpoint does not answer. -/
def envOnlineUnreachable : Env := ⟨true, false, fun _ => false⟩

/-- The reachability gate of the spec: monitor-online and a health probe
that actually succeeds (request 0 of the operation). -/
def gatePassed (env : Env) : Prop :=
  env.online = true ∧ env.reachable = true ∧ env.failAt 0 = false

/-- One engine-level mutation, bundled with the connectivity it ran under. -/
inductive Op where
  | add (env : Env) (input : TaskInput)
  | upd (env : Env) (id : Nat) (p : TaskPatch)
  | del (env : Env) (id : Nat)
  | sync (env : Env) (st : SyncState)

/-- The world reached after one engine operation (results discarded). -/
def applyOp (w : World) : Op → World
  | .add env input => (engine_addTask env w input).1
  | .upd env id p => (engine_updateTask env w id p).1
  | .del env id => (engine_deleteTask env w id).1
  | .sync env st => (syncWithServer env w st).1

/-- The world reached after a sequence of engine operations. -/
def runOps (w : World) (ops : List Op) : World :=
  ops.foldl applyOp w

/-- Every record of the list has an identifier below `c` and different
from `d` — the invariant that keeps a deleted identifier dead. -/
def Gstore (d c : Nat) (l : List Task) : Prop :=
  ∀ t ∈ l, t.id < c ∧ t.id ≠ d

/-- All identifiers of both stores lie below the clock (fresh identifiers
are clock draws, so they never collide with existing ones). -/
def idsBelow (w : World) : Prop :=
  (∀ t ∈ w.store, t.id < w.clock) ∧ (∀ t ∈ w.server, t.id < w.clock)

/-- The deleted-identifier invariant over a whole world. -/
def GdW (d : Nat) (w : World) : Prop :=
  Gstore d w.clock w.store ∧ Gstore d w.clock w.server ∧ d < w.clock

/-- The stats contract of the spec for a collection and an aggregate. -/
def statsLawful (tasks : List Task) (s : Stats) : Prop :=
  s.total = tasks.length ∧
  s.completed = (tasks.filter (fun t => t.completed)).length ∧
  s.completed + s.pending = s.total ∧
  s.pending = s.total - s.completed ∧
  s.highPriority =
    (tasks.filter (fun t => t.priority == Priority.high && !t.completed)).length ∧
  s.highPriority ≤ s.pending

/-- Length of the base64 encoding (with padding) of `n` raw bytes. -/
def b64Len (n : Nat) : Nat := 4 * ((n + 2) / 3)

/-! ## Concrete scenarios referenced by the claim theorems -/

/-- Empty world with the clock at 100. -/
def emptyWorld : World := ⟨[], [], 100⟩

/-- C1 step 1: `addTask({title:"B"})` while unreachable. -/
def c1Added : World × List RCall × Except EngineError Task :=
  engine_addTask envOffline emptyWorld { title := "B" }

/-- C1 step 2: reachability restored, one full `syncWithServer` pass. -/
def c1Synced : World × SyncState × List RCall :=
  syncWithServer envGood c1Added.1 {}

/-- C2: a second `syncWithServer` pass immediately after the first, with no
intervening mutation and no connectivity change. -/
def c2Second : World × SyncState × List RCall :=
  syncWithServer envGood c1Synced.1 c1Synced.2.1

/-- C3: `addTask({title:"A"})` while reachable, remote create succeeding. -/
def c3Run : World × List RCall × Except EngineError Task :=
  engine_addTask envGood emptyWorld { title := "A" }

/-- A synced record present in both stores under identifier 5. -/
def c4Task : Task :=
  ⟨5, "x", "", false, .medium, none, none, 0, 0, true, false, false, none⟩

/-- Environment whose request 1 (the DELETE after the health probe) fails. -/
def c4EnvDeleteFails : Env := ⟨true, true, fun n => n == 1⟩

/-- World holding the record 5 locally and remotely. -/
def c4World : World := ⟨[c4Task], [c4Task], 50⟩

/-- C4: the world after `deleteTask(5)` whose remote delete failed. -/
def c4Deleted : World := (engine_deleteTask c4EnvDeleteFails c4World 5).1

/-- C5: a world with one record available to update. -/
def c5World : World := ⟨[c4Task], [c4Task], 50⟩

/-- An unsynced, locally created task for the C7 scenario. -/
def c7Task (i : Nat) (s : String) : Task :=
  ⟨i, s, "", false, .medium, none, none, i, i, false, true, false, none⟩

/-- Environment whose request 2 — the push of the second unsynced record,
after health probe 0 and first push 1 — fails. -/
def c7Env : Env := ⟨true, true, fun n => n == 2⟩

/-- Three unsynced local records, empty server. -/
def c7World : World := ⟨[c7Task 1 "one", c7Task 2 "two", c7Task 3 "three"], [], 100⟩

/-- C7: the reconciliation pass in which the second push fails. -/
def c7Run : World × SyncState × List RCall :=
  syncWithServer c7Env c7World {}

/-- A base64 payload whose length is that of encoding exactly 5 MiB
(5242880 bytes): 6990507 characters plus one padding character.  The server
never decodes the data, so its content is irrelevant; only the length is. -/
def c6Data : String := String.mk (List.replicate (b64Len (5 * 1024 * 1024)) 'A')

/-- A create request carrying that exactly-5-MiB image. -/
def c6Body : CreateBody :=
  { title := "pic", image := some (.obj ⟨c6Data, "image/png"⟩) }

/-- A small (clearly under-limit) image used to witness the boundary. -/
def c6SmallImage : Image := ⟨"aGVsbG8=", "image/png"⟩

/-- A create request carrying the small image. -/
def c6SmallBody : CreateBody :=
  { title := "pic", image := some (.obj c6SmallImage) }

/-- A record before the C8 witness update. -/
def c8Before : Task :=
  ⟨5, "x", "", false, .medium, none, none, 0, 0, true, false, false, none⟩

/-- The patch a sync pass uses to mark a record synced. -/
def c8Patch : TaskPatch := { synced := some true }

/-- The record the local store actually persists for that update. -/
def c8After : Task := { c8Before with updatedAt := 9, synced := false }

/-- A locally completed, unsynced, locally created task (C9). -/
def c9Task : Task :=
  ⟨3, "done", "", true, .high, none, none, 1, 2, false, true, false, none⟩

/-- The server record created when the sync loop pushes `c9Task`. -/
def c9Out : Task := server_mkTask (syncCreateBody c9Task) 7 none

/-! ## Theorems -/

theorem length_filter_hp_add_completed_le (l : List Task) :
    (l.filter (fun t => t.priority == Priority.high && !t.completed)).length +
      (l.filter (fun t => t.completed)).length ≤ l.length := by
  induction l with
  | nil => simp
  | cons t ts ih =>
    cases hc : t.completed
    · cases hp : (t.priority == Priority.high) <;>
        (simp [List.filter_cons, hc, hp]; omega)
    · simp [List.filter_cons, hc]
      omega

theorem statsLawful_localStats (tasks : List Task) :
    statsLawful tasks (localStats tasks) := by
  have hc : (tasks.filter (fun t => t.completed)).length ≤ tasks.length :=
    List.length_filter_le _ _
  have hd := length_filter_hp_add_completed_le tasks
  refine ⟨rfl, rfl, ?_, rfl, rfl, ?_⟩ <;> simp [localStats] <;> omega

/-- C10: for every task collection, the stats computed by `getStats` — the
local fallback `localStats` and the remote `/stats` aggregation
`server_stats`, the two computations the engine-level `engine_getStats` can
return — satisfy `total = |records|`, `completed = |{r : r.completed}|`,
`pending = total - completed` (with `completed + pending = total`),
`highPriority = |{r : r.priority = high ∧ ¬r.completed}|`, and
`highPriority ≤ pending`. -/
theorem C10_stats_consistency (tasks : List Task) (env : Env) (w : World) :
    statsLawful tasks (localStats tasks) ∧
    statsLawful tasks (server_stats tasks) ∧
    ((engine_getStats env w).1 = server_stats w.server ∨
      (engine_getStats env w).1 = localStats w.store) := by
  refine ⟨statsLawful_localStats tasks, ?_, ?_⟩
  · have h : server_stats tasks = localStats tasks := rfl
    rw [h]
    exact statsLawful_localStats tasks
  · cases ho : env.online <;>
      simp [engine_getStats, checkServerConnection, ho, idb_getTasks]
    cases h0 : remoteOk env 0
    · simp [h0]
    · simp only [h0, if_true, if_pos]
      cases h1 : remoteOk env 1 <;> simp [h1]

/-- C8: every successful Local Store `update(id, fields)` call stores (and
returns) a record with `synced = false` and `updatedAt` stamped to the time
of the update, even when `fields` contains `synced: true` — so no caller can
set a record's synced flag through the Local Store update operation. -/
theorem C8_local_update_forces_unsynced (store : List Task) (id : Nat)
    (p : TaskPatch) (now : Nat) (store' : List Task) (t : Task)
    (h : idb_updateTask store id p now = .ok (store', t)) :
    t.synced = false ∧ t.updatedAt = now ∧ t ∈ store' := by
  induction store generalizing store' with
  | nil => simp [idb_updateTask] at h
  | cons hd tl ih =>
    rw [idb_updateTask] at h
    by_cases hid : (hd.id == id) = true
    · simp only [hid, if_pos] at h
      rw [Except.ok.injEq, Prod.mk.injEq] at h
      obtain ⟨hs, ht⟩ := h
      subst ht
      exact ⟨rfl, rfl, hs ▸ List.mem_cons_self _ _⟩
    · simp only [hid] at h
      rw [if_neg (by simp_all)] at h
      cases hrec : idb_updateTask tl id p now with
      | error e => rw [hrec] at h; cases h
      | ok r =>
        rw [hrec] at h
        rw [Except.ok.injEq, Prod.mk.injEq] at h
        obtain ⟨hs, ht⟩ := h
        obtain ⟨h1, h2, h3⟩ := ih r.1 (ht ▸ hrec)
        exact ⟨h1, h2, hs ▸ List.mem_cons_of_mem _ h3⟩

/-- C8 witness: updating record 5 with `{synced: true}` at time 9 succeeds
and still persists `synced = false`, `updatedAt = 9`. -/
theorem C8_witness :
    idb_updateTask [c8Before] 5 c8Patch 9 = .ok ([c8After], c8After) ∧
    (c8After.synced = false ∧ c8After.updatedAt = 9 ∧ c8After ∈ [c8After]) :=
  ⟨by rfl,
   C8_local_update_forces_unsynced [c8Before] 5 c8Patch 9 [c8After] c8After
     (by rfl)⟩

/-- C9: the remote create (`POST /tasks`) always stores the new record with
`completed = false`, whatever `completed` value the request body carries —
so pushing a locally completed, unsynced task during a sync pass yields a
remote record marked not completed. -/
theorem C9_server_create_ignores_completed (tasks : List Task)
    (body : CreateBody) (now : Nat) (ts' : List Task) (t : Task)
    (h : server_createTask tasks body now = .ok (ts', t)) :
    t.completed = false := by
  rw [server_createTask] at h
  split at h
  · cases h
  · split at h
    · split at h
      · cases h
      · rw [Except.ok.injEq, Prod.mk.injEq] at h
        exact h.2 ▸ rfl
    · rw [Except.ok.injEq, Prod.mk.injEq] at h
      exact h.2 ▸ rfl

/-- C9 witness: the sync loop's create body for the completed local task
`c9Task` (which sends `completed: true`) produces a server record with
`completed = false`. -/
theorem C9_witness :
    (syncCreateBody c9Task).completed = some true ∧
    server_createTask [] (syncCreateBody c9Task) 7 = .ok ([c9Out], c9Out) ∧
    c9Out.completed = false :=
  ⟨by decide, by rfl,
   C9_server_create_ignores_completed [] (syncCreateBody c9Task) 7 [c9Out]
     c9Out (by rfl)⟩

/-- C1: evaluation of the failing scenario.  `addTask({title:"B"})` while
unreachable does store the record with `synced = false` (first half of the
claim, which holds), and the subsequent `syncWithServer` pass while
reachable completes without error and pushes the record to the server — but
the locally stored copy still has `synced = false`, because
`useIndexedDB.updateTask` overrides the sync loop's `{synced: true}` patch
with `synced: false`.  The claim's conclusion `synced = true` fails. -/
theorem C1_sync_success_leaves_record_unsynced :
    c1Added.1.store.map Task.synced = [false] ∧
    c1Synced.2.1.syncError = none ∧
    c1Synced.2.1.lastSyncTime.isSome = true ∧
    c1Synced.1.server.map Task.title = ["B"] ∧
    c1Synced.1.store.map Task.synced = [false] ∧
    c1Synced.1.store.map Task.serverCreated = [true] := by
  decide

/-- C2: evaluation of the failing scenario.  Because the first reconciliation
pass leaves its pushed record with `synced = false` (see C1), the second
pass — with no intervening mutation and no connectivity change — pushes the
same logical record again and creates a second remote copy: the state after
the second run differs from the state after the first run. -/
theorem C2_second_sync_duplicates_remote_record :
    c1Synced.1.server.map Task.title = ["B"] ∧
    c2Second.1.server.map Task.title = ["B", "B"] ∧
    c2Second.2.1.syncError = none ∧
    c2Second.1.store.map Task.synced = [false] := by
  decide

/-- C3: evaluation of the failing scenario.  `addTask({title:"A"})` while
reachable, with the remote create succeeding: the server assigns identifier
101, but the returned (and locally stored) record has identifier 102 — a
fresh local `Date.now()` value assigned by `useIndexedDB.addTask`, which
overrides the server identifier in the re-insert — and `synced = false`
instead of `true`, for the same reason.  (The `getTasks()` half of the
claim does hold: exactly one record titled "A" is returned.) -/
theorem C3_roundtrip_returns_unsynced_local_id :
    c3Run.1.server.map Task.id = [101] ∧
    c3Run.2.2.toOption.map Task.id = some 102 ∧
    c3Run.2.2.toOption.map Task.synced = some false ∧
    c3Run.1.store.map Task.synced = [false] ∧
    ((engine_getTasks envGood c3Run.1 false).1.filter
      (fun t => t.title == "A")).length = 1 := by
  decide

/-- C7: evaluation of the failing scenario.  Three unsynced local records;
the remote push of the second fails.  Fault isolation does hold — three
create requests are issued and the first and third land on the server — but
the first and third records do NOT end the pass with `synced = true`: every
record is still `synced = false`, because `useIndexedDB.updateTask`
overrides the `{synced: true}` patch. -/
theorem C7_partial_failure_marks_nothing_synced :
    c7Run.2.2 = [RCall.health, RCall.create, RCall.create, RCall.create] ∧
    c7Run.1.server.map Task.title = ["one", "three"] ∧
    c7Run.1.store.map Task.synced = [false, false, false] ∧
    c7Run.1.store.map Task.serverCreated = [true, false, true] := by
  decide

/-- C5 counterexample: with the browser online but the remote endpoint
unreachable — so no `healthCheck()` can succeed, and indeed none is even
attempted — `updateTask` still issues a remote update request: the
reachability gate does not hold for the `updateTask` operation. -/
theorem C5_counterexample_updateTask_skips_gate :
    envOnlineUnreachable.reachable = false ∧
    (engine_updateTask envOnlineUnreachable c5World 5
      { completed := some true }).2.1 = [RCall.update] := by
  decide

/-- C5 (amended): the reachability gate — `isOnline` true AND a successful
`healthCheck()` — does govern `addTask`, `deleteTask`, `getTasks`,
`getStats` and `syncNow`: when the gate cannot pass, none of them issues
any non-health remote request.  `updateTask` is the exception (see the
counterexample): it issues its remote update gated on `isOnline` alone. -/
theorem C5_amended_gate_holds_except_updateTask (env : Env) (w : World)
    (input : TaskInput) (id : Nat) (st : SyncState) (sy : Bool)
    (h : ¬ gatePassed env) :
    dataCalls (engine_addTask env w input).2.1 = [] ∧
    dataCalls (engine_deleteTask env w id).2 = [] ∧
    dataCalls (engine_getTasks env w sy).2 = [] ∧
    dataCalls (engine_getStats env w).2 = [] ∧
    dataCalls (syncWithServer env w st).2.2 = [] := by
  cases ho : env.online
  · refine ⟨?_, ?_, ?_, ?_, ?_⟩
    · cases hadd : idb_addTask w.store (inputToTask input) w.clock <;>
        simp [engine_addTask, hadd, ho, dataCalls]
    · simp [engine_deleteTask, ho, dataCalls]
    · simp [engine_getTasks, ho, dataCalls]
    · simp [engine_getStats, ho, dataCalls]
    · simp [syncWithServer, ho, dataCalls]
  · have hro : remoteOk env 0 = false := by
      cases hr : env.reachable
      · simp [remoteOk, hr]
      · cases hf : env.failAt 0
        · exact absurd ⟨ho, hr, hf⟩ h
        · simp [remoteOk, hr, hf]
    refine ⟨?_, ?_, ?_, ?_, ?_⟩
    · cases hadd : idb_addTask w.store (inputToTask input) w.clock <;>
        simp [engine_addTask, hadd, ho, checkServerConnection, hro, dataCalls]
    · simp [engine_deleteTask, ho, checkServerConnection, hro, dataCalls]
    · cases sy <;>
        simp [engine_getTasks, ho, checkServerConnection, hro, dataCalls]
    · simp [engine_getStats, ho, checkServerConnection, hro, dataCalls]
    · cases hsy : st.isSyncing <;>
        simp [syncWithServer, hsy, ho, checkServerConnection, hro, dataCalls]

/-- C5 amended witness: an offline environment fails the gate, and none of
the five gated operations issues a non-health remote request there. -/
theorem C5_amended_witness :
    ¬ gatePassed envOffline ∧
    (dataCalls (engine_addTask envOffline c5World { title := "w" }).2.1 = [] ∧
     dataCalls (engine_deleteTask envOffline c5World 5).2 = [] ∧
     dataCalls (engine_getTasks envOffline c5World false).2 = [] ∧
     dataCalls (engine_getStats envOffline c5World).2 = [] ∧
     dataCalls (syncWithServer envOffline c5World {}).2.2 = []) :=
  ⟨by simp [gatePassed, envOffline],
   C5_amended_gate_holds_except_updateTask envOffline c5World { title := "w" }
     5 {} false (by simp [gatePassed, envOffline])⟩

theorem c6Data_length : c6Data.length = 6990508 := by
  show (List.replicate (b64Len (5 * 1024 * 1024)) 'A').length = 6990508
  rw [List.length_replicate]
  norm_num [b64Len]

theorem c6Data_ne : c6Data ≠ "" := by
  intro h
  have hl := c6Data_length
  rw [h] at hl
  simp at hl

theorem c6_imageDataOf :
    imageDataOf (some (.obj ⟨c6Data, "image/png"⟩)) =
      some (c6Data, "image/png") := by
  rw [imageDataOf]
  show (if (c6Data != "") = true then
      some (c6Data, if ("image/png" == "") = true then "image/jpeg" else "image/png")
    else none) = _
  rw [if_pos (bne_iff_ne.mpr c6Data_ne), if_neg (by decide)]

/-- C6 counterexample: a create request whose image data has the exact
length of the base64 encoding of 5 MiB = 5242880 bytes (6990508 characters,
padding included) is rejected by `POST /tasks` with the image-size error —
the claim says a payload of exactly 5 MiB decoded bytes is accepted.  The
handler measures `(base64Length * 3) / 4` over the raw string (padding and
any data-URI marker included) instead of the decoded byte count. -/
theorem C6_counterexample_exact_5MiB_rejected :
    c6Data.length = b64Len (5 * 1024 * 1024) ∧
    server_createTask [] c6Body 0 =
      .error (.badRequest "Image too large. Maximum size is 5MB.") := by
  constructor
  · show (List.replicate (b64Len (5 * 1024 * 1024)) 'A').length = _
    exact List.length_replicate _ _
  · have h1 : resolveCreateImage c6Body.image c6Body.photo =
        some (.obj ⟨c6Data, "image/png"⟩) := rfl
    have h3 : imageTooLarge c6Data.length = true := by
      rw [c6Data_length]
      decide
    rw [server_createTask, if_neg (by decide), h1, c6_imageDataOf]
    show (if imageTooLarge c6Data.length = true then _ else _) = _
    rw [if_pos h3]

/-- C6 (amended): the boundary that validates remote-bound writes (the POST
and PUT handlers) rejects a request carrying an image exactly when
`3 * base64StringLength > 4 * 5 MiB`, the string measured as received —
data-URI marker and padding included, decoded size never computed.  In
particular a payload of exactly 5 MiB decoded bytes is rejected whenever
its encoding carries padding (see the counterexample), while 5 MiB + 1 is
rejected as the claim states. -/
theorem C6_amended_size_check_is_approximate :
    (∀ (tasks : List Task) (body : CreateBody) (now : Nat) (i : Image),
      body.title ≠ "" → body.image = some (.obj i) → i.data ≠ "" →
      ((server_createTask tasks body now =
          .error (.badRequest "Image too large. Maximum size is 5MB.")) ↔
        imageTooLarge i.data.length = true)) ∧
    (∀ (existing : Task) (body : TaskPatch) (now : Nat) (i : Image),
      body.image = some (some i) → i.data ≠ "" →
      ((server_applyUpdate existing body now =
          .error (.badRequest "Image too large. Maximum size is 5MB.")) ↔
        imageTooLarge i.data.length = true)) := by
  constructor
  · intro tasks body now i htitle himg hdata
    have h1 : resolveCreateImage body.image body.photo = some (.obj i) := by
      rw [himg]
      rfl
    have h2 : imageDataOf (some (.obj i)) =
        some (i.data, if (i.type == "") = true then "image/jpeg" else i.type) := by
      rw [imageDataOf, if_pos (bne_iff_ne.mpr hdata)]
    rw [server_createTask, if_neg (by simp [htitle]), h1, h2]
    show (if imageTooLarge i.data.length = true then _ else _) = _ ↔ _
    by_cases htl : imageTooLarge i.data.length = true
    · rw [if_pos htl]
      simp [htl]
    · rw [if_neg htl]
      simp [htl]
  · intro existing body now i himg hdata
    have h1 : resolveUpdateImage body.image body.photo = some (some i) := by
      rw [himg]
      rfl
    have h2 : server_processUpdateImage existing.image (some (some i)) =
        if imageTooLarge i.data.length = true then
          .error (.badRequest "Image too large. Maximum size is 5MB.")
        else
          .ok (some { data := stripDataUri i.data
                      type := if (i.type == "") = true then "image/jpeg" else i.type }) := by
      rw [server_processUpdateImage, if_pos (bne_iff_ne.mpr hdata)]
    rw [server_applyUpdate, h1, h2]
    by_cases htl : imageTooLarge i.data.length = true
    · rw [if_pos htl]
      simp [htl]
    · rw [if_neg htl]
      simp [htl]

/-- C6 amended witness: a clearly under-limit image is not size-rejected by
either handler, as the amended boundary condition states. -/
theorem C6_amended_witness :
    (c6SmallBody.title ≠ "" ∧ c6SmallBody.image = some (.obj c6SmallImage) ∧
      c6SmallImage.data ≠ "") ∧
    ((server_createTask [] c6SmallBody 0 =
        .error (.badRequest "Image too large. Maximum size is 5MB.")) ↔
      imageTooLarge c6SmallImage.data.length = true) ∧
    ((server_applyUpdate c8Before { image := some (some c6SmallImage) } 0 =
        .error (.badRequest "Image too large. Maximum size is 5MB.")) ↔
      imageTooLarge c6SmallImage.data.length = true) :=
  ⟨⟨by decide, rfl, by decide⟩,
   C6_amended_size_check_is_approximate.1 [] c6SmallBody 0 c6SmallImage
     (by decide) rfl (by decide),
   C6_amended_size_check_is_approximate.2 c8Before
     { image := some (some c6SmallImage) } 0 c6SmallImage rfl (by decide)⟩

theorem Gstore_mono {d c c' : Nat} {l : List Task} (hcc : c ≤ c')
    (h : Gstore d c l) : Gstore d c' l :=
  fun t ht => ⟨Nat.lt_of_lt_of_le (h t ht).1 hcc, (h t ht).2⟩

theorem Gstore_sub {d c : Nat} {l l' : List Task}
    (hsub : ∀ u ∈ l', u ∈ l) (h : Gstore d c l) : Gstore d c l' :=
  fun t ht => h t (hsub t ht)

theorem Gstore_append_fresh {d c : Nat} {l : List Task} {x : Task}
    (h : Gstore d c l) (hx : x.id = c) (hd : d < c) :
    Gstore d (c + 1) (l ++ [x]) := by
  intro t ht
  rcases List.mem_append.mp ht with h1 | h1
  · exact ⟨Nat.lt_succ_of_lt (h t h1).1, (h t h1).2⟩
  · rcases List.mem_singleton.mp h1 with rfl
    exact ⟨by omega, by omega⟩

theorem Gstore_of_map_ids {d c : Nat} {l l' : List Task}
    (hids : l'.map Task.id = l.map Task.id) (h : Gstore d c l) :
    Gstore d c l' := by
  intro t ht
  have hm : t.id ∈ l.map Task.id := hids ▸ List.mem_map_of_mem Task.id ht
  rcases List.mem_map.mp hm with ⟨u, hu, hid⟩
  exact ⟨hid ▸ (h u hu).1, hid ▸ (h u hu).2⟩

theorem idb_addTask_ok {store : List Task} {input : Task} {now : Nat}
    {store' : List Task} {t : Task}
    (h : idb_addTask store input now = .ok (store', t)) :
    store' = store ++ [t] ∧ t.id = now := by
  simp only [idb_addTask] at h
  split at h
  · cases h
  · rw [Except.ok.injEq, Prod.mk.injEq] at h
    obtain ⟨h1, h2⟩ := h
    subst h2
    exact ⟨h1.symm, rfl⟩

theorem idb_updateTask_ids {store : List Task} {id : Nat} {p : TaskPatch}
    {now : Nat} {store' : List Task} {t : Task}
    (h : idb_updateTask store id p now = .ok (store', t)) :
    store'.map Task.id = store.map Task.id := by
  induction store generalizing store' t with
  | nil => simp [idb_updateTask] at h
  | cons hd tl ih =>
    rw [idb_updateTask] at h
    by_cases hid : (hd.id == id) = true
    · rw [if_pos hid] at h
      rw [Except.ok.injEq, Prod.mk.injEq] at h
      obtain ⟨hs, ht⟩ := h
      subst hs
      rfl
    · rw [if_neg hid] at h
      cases hrec : idb_updateTask tl id p now with
      | error e => rw [hrec] at h; cases h
      | ok r =>
        obtain ⟨ts₀, u₀⟩ := r
        rw [hrec] at h
        rw [Except.ok.injEq, Prod.mk.injEq] at h
        obtain ⟨hs, ht⟩ := h
        subst hs
        simpa using ih hrec

theorem idb_deleteTask_mem {store : List Task} {id : Nat} :
    ∀ u ∈ idb_deleteTask store id, u ∈ store := by
  intro u hu
  exact List.mem_of_mem_filter hu

theorem server_createTask_ok {tasks : List Task} {body : CreateBody}
    {now : Nat} {ts' : List Task} {t : Task}
    (h : server_createTask tasks body now = .ok (ts', t)) :
    ts' = tasks ++ [t] ∧ t.id = now := by
  rw [server_createTask] at h
  split at h
  · cases h
  · split at h
    · split at h
      · cases h
      · simp only [Except.ok.injEq, Prod.mk.injEq] at h
        obtain ⟨h1, h2⟩ := h
        subst h2
        exact ⟨h1.symm, rfl⟩
    · simp only [Except.ok.injEq, Prod.mk.injEq] at h
      obtain ⟨h1, h2⟩ := h
      subst h2
      exact ⟨h1.symm, rfl⟩

theorem server_applyUpdate_id {existing : Task} {body : TaskPatch} {now : Nat}
    {u : Task} (h : server_applyUpdate existing body now = .ok u) :
    u.id = existing.id := by
  rw [server_applyUpdate] at h
  split at h
  · cases h
  · rw [Except.ok.injEq] at h
    subst h
    rfl

theorem server_updateTask_ids {tasks : List Task} {id : Nat} {body : TaskPatch}
    {now : Nat} {ts' : List Task} {u : Task}
    (h : server_updateTask tasks id body now = .ok (ts', u)) :
    ts'.map Task.id = tasks.map Task.id := by
  induction tasks generalizing ts' u with
  | nil => simp [server_updateTask] at h
  | cons hd tl ih =>
    rw [server_updateTask] at h
    by_cases hid : (hd.id == id) = true
    · rw [if_pos hid] at h
      cases hap : server_applyUpdate hd body now with
      | error e => rw [hap] at h; cases h
      | ok v =>
        rw [hap] at h
        rw [Except.ok.injEq, Prod.mk.injEq] at h
        obtain ⟨hs, ht⟩ := h
        subst hs
        simp [server_applyUpdate_id hap]
    · rw [if_neg hid] at h
      cases hrec : server_updateTask tl id body now with
      | error e => rw [hrec] at h; cases h
      | ok r =>
        obtain ⟨ts₀, u₀⟩ := r
        rw [hrec] at h
        rw [Except.ok.injEq, Prod.mk.injEq] at h
        obtain ⟨hs, ht⟩ := h
        subst hs
        simpa using ih hrec

theorem server_deleteTask_mem {tasks : List Task} {id : Nat} {ts' : List Task}
    (h : server_deleteTask tasks id = .ok ts') : ∀ u ∈ ts', u ∈ tasks := by
  induction tasks generalizing ts' with
  | nil => simp [server_deleteTask] at h
  | cons hd tl ih =>
    rw [server_deleteTask] at h
    by_cases hid : (hd.id == id) = true
    · rw [if_pos hid] at h
      rw [Except.ok.injEq] at h
      subst h
      exact fun u hu => List.mem_cons_of_mem _ hu
    · rw [if_neg hid] at h
      cases hrec : server_deleteTask tl id with
      | error e => rw [hrec] at h; cases h
      | ok ts₀ =>
        rw [hrec] at h
        rw [Except.ok.injEq] at h
        subst h
        intro u hu
        rcases List.mem_cons.mp hu with rfl | hu
        · exact List.mem_cons_self _ _
        · exact List.mem_cons_of_mem _ (ih hrec u hu)

theorem server_deleteTask_no_id {tasks : List Task} {id : Nat} {ts' : List Task}
    (hnd : (tasks.map Task.id).Nodup)
    (h : server_deleteTask tasks id = .ok ts') : ∀ u ∈ ts', u.id ≠ id := by
  induction tasks generalizing ts' with
  | nil => simp [server_deleteTask] at h
  | cons hd tl ih =>
    rw [server_deleteTask] at h
    rw [List.map_cons, List.nodup_cons] at hnd
    by_cases hid : (hd.id == id) = true
    · rw [if_pos hid] at h
      rw [Except.ok.injEq] at h
      subst h
      intro u hu hcontra
      have hm : u.id ∈ tl.map Task.id := List.mem_map_of_mem _ hu
      rw [hcontra, ← beq_iff_eq.mp hid] at hm
      exact hnd.1 hm
    · rw [if_neg hid] at h
      cases hrec : server_deleteTask tl id with
      | error e => rw [hrec] at h; cases h
      | ok ts₀ =>
        rw [hrec] at h
        rw [Except.ok.injEq] at h
        subst h
        intro u hu
        rcases List.mem_cons.mp hu with rfl | hu
        · exact fun hcontra => hid (beq_iff_eq.mpr hcontra)
        · exact ih hnd.2 hrec u hu

theorem server_deleteTask_mem_id_ok {tasks : List Task} {id : Nat} (u : Task)
    (hu : u ∈ tasks) (hid : u.id = id) :
    ∃ ts', server_deleteTask tasks id = .ok ts' := by
  induction tasks with
  | nil => cases hu
  | cons hd tl ih =>
    by_cases hhd : (hd.id == id) = true
    · exact ⟨tl, by rw [server_deleteTask, if_pos hhd]⟩
    · rcases List.mem_cons.mp hu with rfl | hu
      · exact absurd (beq_iff_eq.mpr hid) hhd
      · rcases ih hu with ⟨ts₀, hts₀⟩
        exact ⟨hd :: ts₀, by rw [server_deleteTask, if_neg hhd, hts₀]⟩

theorem GdW_addTask (d : Nat) (env : Env) (w : World) (input : TaskInput)
    (h : GdW d w) : GdW d (engine_addTask env w input).1 := by
  obtain ⟨hst, hsv, hd⟩ := h
  rw [engine_addTask]
  cases hadd : idb_addTask w.store (inputToTask input) w.clock with
  | error e => exact ⟨hst, hsv, hd⟩
  | ok pr =>
    obtain ⟨store₁, newTask⟩ := pr
    obtain ⟨hsh, hid⟩ := idb_addTask_ok hadd
    subst hsh
    have hst₁ : Gstore d (w.clock + 1) (w.store ++ [newTask]) :=
      Gstore_append_fresh hst hid hd
    have hsv₁ : Gstore d (w.clock + 1) w.server := Gstore_mono (Nat.le_succ _) hsv
    have hd₁ : d < w.clock + 1 := Nat.lt_succ_of_lt hd
    try dsimp only
    cases ho : env.online
    · exact ⟨hst₁, hsv₁, hd₁⟩
    · have hcsc : checkServerConnection env 0 =
          (remoteOk env 0, 1, [RCall.health]) := by
        simp [checkServerConnection, ho]
      rw [hcsc]
      try dsimp only
      cases h0 : remoteOk env 0
      · exact ⟨hst₁, hsv₁, hd₁⟩
      · cases h1 : remoteOk env 1
        · exact ⟨hst₁, hsv₁, hd₁⟩
        · try dsimp only
          cases hcr : server_createTask w.server (inputToBody input) (w.clock + 1) with
          | error e => exact ⟨hst₁, hsv₁, hd₁⟩
          | ok pr2 =>
            obtain ⟨server₂, serverTask⟩ := pr2
            obtain ⟨hsh₂, hid₂⟩ := server_createTask_ok hcr
            subst hsh₂
            have hsv₂ : Gstore d (w.clock + 1 + 1) (w.server ++ [serverTask]) :=
              Gstore_append_fresh hsv₁ hid₂ hd₁
            have hst₂ : Gstore d (w.clock + 1 + 1) (w.store ++ [newTask]) :=
              Gstore_mono (Nat.le_succ _) hst₁
            have hd₂ : d < w.clock + 1 + 1 := Nat.lt_succ_of_lt hd₁
            have hstd : Gstore d (w.clock + 1 + 1)
                (idb_deleteTask (w.store ++ [newTask]) newTask.id) :=
              Gstore_sub idb_deleteTask_mem hst₂
            try dsimp only
            cases hadd2 : idb_addTask (idb_deleteTask (w.store ++ [newTask]) newTask.id)
                { serverTask with synced := true, serverCreated := true, isNew := false }
                (w.clock + 1 + 1) with
            | error e => exact ⟨hstd, hsv₂, hd₂⟩
            | ok pr3 =>
              obtain ⟨store₃, finalTask⟩ := pr3
              obtain ⟨hsh₃, hid₃⟩ := idb_addTask_ok hadd2
              subst hsh₃
              exact ⟨Gstore_append_fresh hstd hid₃ hd₂,
                     Gstore_mono (Nat.le_succ _) hsv₂,
                     Nat.lt_succ_of_lt hd₂⟩

theorem GdW_updateLocalOnly (d : Nat) (w : World) (id : Nat) (p : TaskPatch)
    (h : GdW d w) : GdW d (engine_updateLocalOnly w id p).1 := by
  obtain ⟨hst, hsv, hd⟩ := h
  rw [engine_updateLocalOnly]
  cases hu : idb_updateTask w.store id { p with synced := some false } w.clock with
  | error e => exact ⟨hst, hsv, hd⟩
  | ok pr =>
    obtain ⟨store', u⟩ := pr
    exact ⟨Gstore_mono (Nat.le_succ _) (Gstore_of_map_ids (idb_updateTask_ids hu) hst),
           Gstore_mono (Nat.le_succ _) hsv, Nat.lt_succ_of_lt hd⟩

theorem GdW_updateTask (d : Nat) (env : Env) (w : World) (id : Nat)
    (p : TaskPatch) (h : GdW d w) : GdW d (engine_updateTask env w id p).1 := by
  obtain ⟨hst, hsv, hd⟩ := h
  rw [engine_updateTask]
  cases ho : env.online
  · exact GdW_updateLocalOnly d w id p ⟨hst, hsv, hd⟩
  · try dsimp only
    cases h0 : remoteOk env 0
    · exact GdW_updateLocalOnly d w id p ⟨hst, hsv, hd⟩
    · try dsimp only
      cases hsu : server_updateTask w.server id p w.clock with
      | error e => exact GdW_updateLocalOnly d w id p ⟨hst, hsv, hd⟩
      | ok pr =>
        obtain ⟨server', u⟩ := pr
        have hsv₁ : Gstore d (w.clock + 1) server' :=
          Gstore_mono (Nat.le_succ _) (Gstore_of_map_ids (server_updateTask_ids hsu) hsv)
        have hst₁ : Gstore d (w.clock + 1) w.store := Gstore_mono (Nat.le_succ _) hst
        have hd₁ : d < w.clock + 1 := Nat.lt_succ_of_lt hd
        try dsimp only
        cases hlu : idb_updateTask w.store id { p with synced := some true }
            (w.clock + 1) with
        | error e => exact ⟨hst₁, hsv₁, hd₁⟩
        | ok pr2 =>
          obtain ⟨store', v⟩ := pr2
          exact ⟨Gstore_mono (Nat.le_succ _)
                   (Gstore_of_map_ids (idb_updateTask_ids hlu) hst₁),
                 Gstore_mono (Nat.le_succ _) hsv₁, Nat.lt_succ_of_lt hd₁⟩

theorem GdW_deleteTask (d : Nat) (env : Env) (w : World) (id : Nat)
    (h : GdW d w) : GdW d (engine_deleteTask env w id).1 := by
  obtain ⟨hst, hsv, hd⟩ := h
  have hstf : Gstore d w.clock (idb_deleteTask w.store id) :=
    Gstore_sub idb_deleteTask_mem hst
  rw [engine_deleteTask]
  cases ho : env.online
  · exact ⟨hstf, hsv, hd⟩
  · have hcsc : checkServerConnection env 0 =
        (remoteOk env 0, 1, [RCall.health]) := by
      simp [checkServerConnection, ho]
    rw [hcsc]
    try dsimp only
    cases h0 : remoteOk env 0
    · exact ⟨hstf, hsv, hd⟩
    · cases h1 : remoteOk env 1
      · exact ⟨hstf, hsv, hd⟩
      · try dsimp only
        cases hdel : server_deleteTask w.server id with
        | error e => exact ⟨hstf, hsv, hd⟩
        | ok server' =>
          exact ⟨hstf, Gstore_sub (server_deleteTask_mem hdel) hsv, hd⟩

theorem GdA_pushOne (d : Nat) (env : Env) (acc : SyncAcc) (t : Task)
    (h : Gstore d acc.clock acc.store ∧ Gstore d acc.clock acc.server ∧
      d < acc.clock) :
    Gstore d (pushOne env acc t).clock (pushOne env acc t).store ∧
    Gstore d (pushOne env acc t).clock (pushOne env acc t).server ∧
    d < (pushOne env acc t).clock := by
  obtain ⟨hst, hsv, hd⟩ := h
  rw [pushOne]
  cases hnew : t.isNew
  · try dsimp only
    cases hsid : t.serverId with
    | none =>
      try dsimp only
      cases hlu : idb_updateTask acc.store t.id { synced := some true } acc.clock with
      | error e => exact ⟨hst, hsv, hd⟩
      | ok pr =>
        obtain ⟨store', u⟩ := pr
        exact ⟨Gstore_mono (Nat.le_succ _)
                 (Gstore_of_map_ids (idb_updateTask_ids hlu) hst),
               Gstore_mono (Nat.le_succ _) hsv, Nat.lt_succ_of_lt hd⟩
    | some sid =>
      try dsimp only
      cases hr : remoteOk env acc.n
      · exact ⟨hst, hsv, hd⟩
      · try dsimp only
        cases hsu : server_updateTask acc.server sid (syncUpdateBody t) acc.clock with
        | error e => exact ⟨hst, hsv, hd⟩
        | ok pr =>
          obtain ⟨server', u⟩ := pr
          have hsv₁ : Gstore d (acc.clock + 1) server' :=
            Gstore_mono (Nat.le_succ _)
              (Gstore_of_map_ids (server_updateTask_ids hsu) hsv)
          have hst₁ : Gstore d (acc.clock + 1) acc.store :=
            Gstore_mono (Nat.le_succ _) hst
          have hd₁ : d < acc.clock + 1 := Nat.lt_succ_of_lt hd
          try dsimp only
          cases hlu : idb_updateTask acc.store t.id { synced := some true }
              (acc.clock + 1) with
          | error e => exact ⟨hst₁, hsv₁, hd₁⟩
          | ok pr2 =>
            obtain ⟨store', v⟩ := pr2
            exact ⟨Gstore_mono (Nat.le_succ _)
                     (Gstore_of_map_ids (idb_updateTask_ids hlu) hst₁),
                   Gstore_mono (Nat.le_succ _) hsv₁, Nat.lt_succ_of_lt hd₁⟩
  · try dsimp only
    cases hr : remoteOk env acc.n
    · exact ⟨hst, hsv, hd⟩
    · try dsimp only
      cases hcr : server_createTask acc.server (syncCreateBody t) acc.clock with
      | error e => exact ⟨hst, hsv, hd⟩
      | ok pr =>
        obtain ⟨server', u⟩ := pr
        obtain ⟨hsh, hid⟩ := server_createTask_ok hcr
        subst hsh
        have hsv₁ : Gstore d (acc.clock + 1) (acc.server ++ [u]) :=
          Gstore_append_fresh hsv hid hd
        have hst₁ : Gstore d (acc.clock + 1) acc.store :=
          Gstore_mono (Nat.le_succ _) hst
        have hd₁ : d < acc.clock + 1 := Nat.lt_succ_of_lt hd
        try dsimp only
        cases hlu : idb_updateTask acc.store t.id
            { serverCreated := some true, synced := some true } (acc.clock + 1) with
        | error e => exact ⟨hst₁, hsv₁, hd₁⟩
        | ok pr2 =>
          obtain ⟨store', v⟩ := pr2
          exact ⟨Gstore_mono (Nat.le_succ _)
                   (Gstore_of_map_ids (idb_updateTask_ids hlu) hst₁),
                 Gstore_mono (Nat.le_succ _) hsv₁, Nat.lt_succ_of_lt hd₁⟩

theorem GdA_foldl (d : Nat) (env : Env) (l : List Task) (acc : SyncAcc)
    (h : Gstore d acc.clock acc.store ∧ Gstore d acc.clock acc.server ∧
      d < acc.clock) :
    Gstore d (l.foldl (pushOne env) acc).clock (l.foldl (pushOne env) acc).store ∧
    Gstore d (l.foldl (pushOne env) acc).clock (l.foldl (pushOne env) acc).server ∧
    d < (l.foldl (pushOne env) acc).clock := by
  induction l generalizing acc with
  | nil => exact h
  | cons x xs ih => exact ih (pushOne env acc x) (GdA_pushOne d env acc x h)

theorem GdW_sync (d : Nat) (env : Env) (w : World) (st : SyncState)
    (h : GdW d w) : GdW d (syncWithServer env w st).1 := by
  obtain ⟨hst, hsv, hd⟩ := h
  rw [syncWithServer]
  cases hguard : (st.isSyncing || !env.online)
  · try dsimp only
    cases hcsc : checkServerConnection env 0 with
    | mk avail rest =>
      obtain ⟨n₁, tr₁⟩ := rest
      try dsimp only
      cases avail
      · exact ⟨hst, hsv, hd⟩
      · try dsimp only
        cases hemp : ((idb_getTasks w.store).filter (fun t => !t.synced)).isEmpty
        · try dsimp only
          exact GdA_foldl d env _ ⟨w.store, w.server, w.clock, n₁, tr₁⟩
            ⟨hst, hsv, hd⟩
        · cases h1 : remoteOk env n₁ <;> exact ⟨hst, hsv, hd⟩
  · exact ⟨hst, hsv, hd⟩

theorem getTasks_no_dead_id (d : Nat) (env : Env) (w : World) (sy : Bool)
    (h : GdW d w) : ∀ t ∈ (engine_getTasks env w sy).1, t.id ≠ d := by
  obtain ⟨hst, hsv, hd⟩ := h
  rw [engine_getTasks]
  cases hg : (env.online && !sy)
  · exact fun t ht => (hst t ht).2
  · try dsimp only
    cases hcsc : checkServerConnection env 0 with
    | mk avail rest =>
      obtain ⟨n₁, tr₁⟩ := rest
      try dsimp only
      cases avail
      · exact fun t ht => (hst t ht).2
      · try dsimp only
        cases h1 : remoteOk env n₁
        · exact fun t ht => (hst t ht).2
        · try dsimp only
          cases hemp : w.server.isEmpty
          · intro t ht
            rcases List.mem_append.mp ht with h2 | h2
            · exact (hsv t h2).2
            · exact (hst t (List.mem_of_mem_filter h2)).2
          · exact fun t ht => (hst t ht).2

theorem GdW_applyOp (d : Nat) (w : World) (op : Op) (h : GdW d w) :
    GdW d (applyOp w op) := by
  cases op with
  | add env input => exact GdW_addTask d env w input h
  | upd env id p => exact GdW_updateTask d env w id p h
  | del env id => exact GdW_deleteTask d env w id h
  | sync env st => exact GdW_sync d env w st h

theorem GdW_runOps (d : Nat) (w : World) (ops : List Op) (h : GdW d w) :
    GdW d (runOps w ops) := by
  induction ops generalizing w with
  | nil => exact h
  | cons op rest ih => exact ih (applyOp w op) (GdW_applyOp d w op h)

theorem GdW_after_delete (env : Env) (w : World) (d : Nat)
    (h1 : env.online = true) (h2 : env.reachable = true)
    (h3 : env.failAt 0 = false) (h4 : env.failAt 1 = false)
    (h5 : (w.server.map Task.id).Nodup)
    (h6 : idsBelow w) (h7 : d < w.clock) :
    GdW d (engine_deleteTask env w d).1 := by
  obtain ⟨hst, hsv⟩ := h6
  have hstf : Gstore d w.clock (idb_deleteTask w.store d) := by
    intro t ht
    have ht' : t ∈ w.store.filter (fun u => u.id != d) := ht
    have hmem := List.mem_of_mem_filter ht'
    have hne := List.of_mem_filter ht'
    exact ⟨hst t hmem, bne_iff_ne.mp hne⟩
  have hr0 : remoteOk env 0 = true := by simp [remoteOk, h2, h3]
  have hr1 : remoteOk env 1 = true := by simp [remoteOk, h2, h4]
  have hcsc : checkServerConnection env 0 = (true, 1, [RCall.health]) := by
    simp [checkServerConnection, h1, hr0]
  rw [engine_deleteTask, if_pos h1, hcsc]
  try dsimp only
  rw [if_pos rfl, hr1, if_pos rfl]
  cases hdel : server_deleteTask w.server d with
  | ok server' =>
    exact ⟨hstf,
           fun u hu => ⟨hsv u (server_deleteTask_mem hdel u hu),
                        server_deleteTask_no_id h5 hdel u hu⟩,
           h7⟩
  | error e =>
    refine ⟨hstf, fun u hu => ⟨hsv u hu, fun hc => ?_⟩, h7⟩
    rcases server_deleteTask_mem_id_ok u hu hc with ⟨ts', hts'⟩
    rw [hts'] at hdel
    cases hdel

/-- C4 counterexample: the record with identifier 5 exists in both stores;
`deleteTask(5)` resolves, its remote delete request failing.  The local
store no longer holds the record, but a later `getTasks()` while reachable
returns the surviving remote copy with that very identifier — so deletion
is not final regardless of the remote-delete outcome, contradicting the
claim. -/
theorem C4_counterexample_failed_remote_delete_resurfaces :
    (c4Deleted.store.all (fun t => t.id != 5)) = true ∧
    c4Deleted.server.map Task.id = [5] ∧
    (engine_getTasks envGood c4Deleted false).1.map Task.id = [5] := by
  decide

/-- C4 (amended): after `deleteTask(id)` resolves with its remote delete
request actually reaching the server — gate passed and the DELETE request
not failing, so the remote copy is removed (or was never there) — no later
`getTasks()` returns a record with that `id`, and the local store never
again contains it, across any sequence of further engine operations (given
unique server identifiers and the clock bound every store obeys).  When the
remote delete fails, only the local half survives: the remote copy can
resurface through `getTasks()` (see the counterexample). -/
theorem C4_amended_deletion_final_on_remote_success
    (env : Env) (w : World) (d : Nat) (ops : List Op) (env' : Env) (sy : Bool)
    (h1 : env.online = true) (h2 : env.reachable = true)
    (h3 : env.failAt 0 = false) (h4 : env.failAt 1 = false)
    (h5 : (w.server.map Task.id).Nodup)
    (h6 : idsBelow w) (h7 : d < w.clock) :
    ((runOps (engine_deleteTask env w d).1 ops).store.all
        (fun t => t.id != d)) = true ∧
    ((runOps (engine_deleteTask env w d).1 ops).server.all
        (fun t => t.id != d)) = true ∧
    ((engine_getTasks env' (runOps (engine_deleteTask env w d).1 ops) sy).1.all
        (fun t => t.id != d)) = true := by
  have hG : GdW d (runOps (engine_deleteTask env w d).1 ops) :=
    GdW_runOps d _ ops (GdW_after_delete env w d h1 h2 h3 h4 h5 h6 h7)
  obtain ⟨hst, hsv, hd⟩ := hG
  refine ⟨?_, ?_, ?_⟩
  · rw [List.all_eq_true]
    exact fun t ht => bne_iff_ne.mpr (hst t ht).2
  · rw [List.all_eq_true]
    exact fun t ht => bne_iff_ne.mpr (hsv t ht).2
  · rw [List.all_eq_true]
    exact fun t ht =>
      bne_iff_ne.mpr (getTasks_no_dead_id d env' _ sy ⟨hst, hsv, hd⟩ t ht)

/-- C4 amended witness: deleting record 5 with the remote delete succeeding,
then adding a task and running a sync pass, leaves no trace of identifier 5
in either store or in `getTasks()`. -/
theorem C4_amended_witness :
    (envGood.online = true ∧ envGood.reachable = true ∧
     envGood.failAt 0 = false ∧ envGood.failAt 1 = false ∧
     (c4World.server.map Task.id).Nodup ∧ idsBelow c4World ∧
     5 < c4World.clock) ∧
    (((runOps (engine_deleteTask envGood c4World 5).1
        [Op.add envGood { title := "y" }, Op.sync envGood {}]).store.all
        (fun t => t.id != 5)) = true ∧
     ((runOps (engine_deleteTask envGood c4World 5).1
        [Op.add envGood { title := "y" }, Op.sync envGood {}]).server.all
        (fun t => t.id != 5)) = true ∧
     ((engine_getTasks envGood (runOps (engine_deleteTask envGood c4World 5).1
        [Op.add envGood { title := "y" }, Op.sync envGood {}]) false).1.all
        (fun t => t.id != 5)) = true) :=
  ⟨⟨rfl, rfl, rfl, rfl, by decide,
    ⟨by simp [c4World, c4Task], by simp [c4World, c4Task]⟩, by decide⟩,
   C4_amended_deletion_final_on_remote_success envGood c4World 5
     [Op.add envGood { title := "y" }, Op.sync envGood {}] envGood false
     rfl rfl rfl rfl (by decide)
     ⟨by simp [c4World, c4Task], by simp [c4World, c4Task]⟩ (by decide)⟩

end PWA
